import Mathlib

/-!
Verification development for the Xcode diagnostics extractor
(`xcode_diagnostics.py`).  The core under scrutiny is the diagnostic
parsing engine `_parse_log_file`: a single forward scan over the text
lines of a decompressed build log that classifies lines via a cascade of
regular-expression matchers and performs bounded lookahead to attach
notes, fix-it indicators and source-context snippets to each diagnostic,
plus the surrounding result assembly in `extract_diagnostics`.

Lines of text are modelled as `List Char`.  Each regular expression of
the source is translated into an executable matcher with Python
`re.search` semantics (leftmost match, deterministic here because every
greedy sub-pattern of the concrete regexes is cut off by a delimiter that
the repeated class cannot contain, so no backtracking alternative can
succeed).  The scan itself is modelled with an explicit fuel parameter;
the termination theorem below shows `length + 1` units of fuel always
suffice, so the fuelled function agrees with the Python `while` loop.
-/

namespace XcodeDiag

/-- A line of text, as produced by `output.split('\n')`. -/
abbrev Line := List Char

/-- Python whitespace class `\s` (ASCII part) as used by `str.strip`,
`str.rstrip` and the `^\s+.*$` code-context pattern. -/
def isPySpace (c : Char) : Bool :=
  c = ' ' || c = '\t' || c = '\n' || c = '\r' || c = '\x0b' || c = '\x0c'

/-- Python `str.rstrip()`. -/
def pyRstrip (l : Line) : Line :=
  (l.reverse.dropWhile isPySpace).reverse

/-- Python `str.strip()`. -/
def pyStrip (l : Line) : Line :=
  pyRstrip (l.dropWhile isPySpace)

/-- Python `line.strip().startswith('/')`, the path-prefix test of the
code-context capture step. -/
def startsWithSlash (l : Line) : Bool :=
  match pyStrip l with
  | [] => false
  | c :: _ => c = '/'

/-- Value of a decimal digit string, as Python `int()` on the `(\d+)`
capture groups. -/
def digitsToNat (l : Line) : Nat :=
  l.foldl (fun a c => a * 10 + (c.toNat - 48)) 0

/-- Consume a maximal nonempty run of decimal digits (regex `(\d+)`
followed by a non-digit delimiter, which forbids backtracking). -/
def takeDigits (l : Line) : Option (Nat × Line) :=
  let ds := l.takeWhile Char.isDigit
  if ds.isEmpty then none else some (digitsToNat ds, l.drop ds.length)

/-- Consume one expected character. -/
def expectChar (c : Char) : Line → Option Line
  | [] => none
  | x :: r => if x = c then some r else none

/-- Consume an expected literal string. -/
def expectStr (s : Line) (l : Line) : Option Line :=
  if s.isPrefixOf l then some (l.drop s.length) else none

/-- Severity keyword of a primary diagnostic line: the regex alternation
`(error|warning)`. -/
inductive IssueKind where
  | error
  | warning
deriving DecidableEq

/-- Consume the `(error|warning)` alternation (tried in regex order). -/
def matchKind (l : Line) : Option (IssueKind × Line) :=
  if (("error").data).isPrefixOf l then some (IssueKind.error, l.drop 5)
  else if (("warning").data).isPrefixOf l then some (IssueKind.warning, l.drop 7)
  else none

/-- Match of `main_pattern = ([^:]+):(\d+):(\d+): (error|warning): ([^\n]+)`
anchored at the start of `l`, returning the five capture groups.  The
greedy `[^:]+` must run to the first colon and each `(\d+)` to the first
non-digit, since the following delimiter cannot occur inside the class. -/
def matchMainAt (l : Line) : Option (Line × Nat × Nat × IssueKind × Line) :=
  let fp := l.takeWhile (fun c => !(c = ':'))
  if fp.isEmpty then none
  else
    (expectChar ':' (l.drop fp.length)).bind (fun r1 =>
    (takeDigits r1).bind (fun p2 =>
    (expectChar ':' p2.2).bind (fun r3 =>
    (takeDigits r3).bind (fun p4 =>
    (expectStr ((": ").data) p4.2).bind (fun r5 =>
    (matchKind r5).bind (fun p6 =>
    (expectStr ((": ").data) p6.2).bind (fun r7 =>
      let msg := r7.takeWhile (fun c => !(c = '\n'))
      if msg.isEmpty then none else some (fp, p2.1, p4.1, p6.1, msg))))))))

/-- Match of `alt_pattern = ([^:]+):(\d+): (error|warning): (expected .+)`
anchored at the start of `l`; no column group. -/
def matchAltAt (l : Line) : Option (Line × Nat × IssueKind × Line) :=
  let fp := l.takeWhile (fun c => !(c = ':'))
  if fp.isEmpty then none
  else
    (expectChar ':' (l.drop fp.length)).bind (fun r1 =>
    (takeDigits r1).bind (fun p2 =>
    (expectStr ((": ").data) p2.2).bind (fun r3 =>
    (matchKind r3).bind (fun p4 =>
    (expectStr ((": ").data) p4.2).bind (fun r5 =>
    (expectStr (("expected ").data) r5).bind (fun r6 =>
      let rest := r6.takeWhile (fun c => !(c = '\n'))
      if rest.isEmpty then none
      else some (fp, p2.1, p4.1, ("expected ").data ++ rest)))))))

/-- Match of `note_pattern = ([^:]+):(\d+):(\d+): (note): ([^\n]+)`
anchored at the start of `l`. -/
def matchNoteAt (l : Line) : Option (Line × Nat × Nat × Line) :=
  let fp := l.takeWhile (fun c => !(c = ':'))
  if fp.isEmpty then none
  else
    (expectChar ':' (l.drop fp.length)).bind (fun r1 =>
    (takeDigits r1).bind (fun p2 =>
    (expectChar ':' p2.2).bind (fun r3 =>
    (takeDigits r3).bind (fun p4 =>
    (expectStr ((": ").data) p4.2).bind (fun r5 =>
    (expectStr (("note").data) r5).bind (fun r6 =>
    (expectStr ((": ").data) r6).bind (fun r7 =>
      let msg := r7.takeWhile (fun c => !(c = '\n'))
      if msg.isEmpty then none else some (fp, p2.1, p4.1, msg))))))))

/-- Does keyword `kw` occur inside `m` with at least one character on
each side?  This is the `.+(?:kw).+` shape of the two concurrency
patterns. -/
def interiorOccurs (kw : Line) (m : Line) : Bool :=
  (List.range m.length).any (fun p =>
    decide (1 ≤ p) && kw.isPrefixOf (m.drop p) && decide (p + kw.length < m.length))

/-- Any of the keywords occurs strictly inside `m`. -/
def hasInteriorKw (kws : List Line) (m : Line) : Bool :=
  kws.any (fun kw => interiorOccurs kw m)

/-- Keyword set of `concurrency_pattern`. -/
def concKeywords : List Line :=
  [("concurrency-safe").data, ("global shared").data, ("Swift 6").data,
   ("nonisolated").data]

/-- Keyword set of `backup_concurrency_pattern`. -/
def backupKeywords : List Line :=
  [("concurrency").data, ("thread safety").data, ("isolation").data,
   ("actor").data]

/-- Match of
`concurrency_pattern = ([^:]+\.swift):(\d+):(\d+): (warning): (.+(?:…).+)`
anchored at the start of `l`.  Because `[^:]+\.swift` is followed by a
colon and the run of non-colon characters is maximal, `.swift` must be
the suffix of that run. -/
def matchConcAt (l : Line) : Option (Line × Nat × Nat × Line) :=
  let fp := l.takeWhile (fun c => !(c = ':'))
  if fp.isEmpty then none
  else if !((".swift").data.isSuffixOf fp) then none
  else if fp.length < 7 then none
  else
    (expectChar ':' (l.drop fp.length)).bind (fun r1 =>
    (takeDigits r1).bind (fun p2 =>
    (expectChar ':' p2.2).bind (fun r3 =>
    (takeDigits r3).bind (fun p4 =>
    (expectStr ((": ").data) p4.2).bind (fun r5 =>
    (expectStr (("warning").data) r5).bind (fun r6 =>
    (expectStr ((": ").data) r6).bind (fun r7 =>
      let msg := r7.takeWhile (fun c => !(c = '\n'))
      if hasInteriorKw concKeywords msg then some (fp, p2.1, p4.1, msg)
      else none)))))))

/-- Match of
`backup_concurrency_pattern = ([^:]+):(\d+):(\d+): (warning): (.+(?:…).+)`
anchored at the start of `l`. -/
def matchBackupAt (l : Line) : Option (Line × Nat × Nat × Line) :=
  let fp := l.takeWhile (fun c => !(c = ':'))
  if fp.isEmpty then none
  else
    (expectChar ':' (l.drop fp.length)).bind (fun r1 =>
    (takeDigits r1).bind (fun p2 =>
    (expectChar ':' p2.2).bind (fun r3 =>
    (takeDigits r3).bind (fun p4 =>
    (expectStr ((": ").data) p4.2).bind (fun r5 =>
    (expectStr (("warning").data) r5).bind (fun r6 =>
    (expectStr ((": ").data) r6).bind (fun r7 =>
      let msg := r7.takeWhile (fun c => !(c = '\n'))
      if hasInteriorKw backupKeywords msg then some (fp, p2.1, p4.1, msg)
      else none)))))))

/-- `re.search`: try the anchored matcher at every start position, left
to right, and return the first success. -/
def searchWith {α : Type} (m : Line → Option α) : Line → Option α
  | [] => m []
  | c :: rest =>
    match m (c :: rest) with
    | some r => some r
    | none => searchWith m rest

/-- `re.search(main_pattern, line)`. -/
def searchMain (l : Line) : Option (Line × Nat × Nat × IssueKind × Line) :=
  searchWith matchMainAt l

/-- `re.search(alt_pattern, line)`. -/
def searchAlt (l : Line) : Option (Line × Nat × IssueKind × Line) :=
  searchWith matchAltAt l

/-- `re.search(note_pattern, line)`. -/
def searchNote (l : Line) : Option (Line × Nat × Nat × Line) :=
  searchWith matchNoteAt l

/-- `re.search(concurrency_pattern, line)`. -/
def searchConc (l : Line) : Option (Line × Nat × Nat × Line) :=
  searchWith matchConcAt l

/-- `re.search(backup_concurrency_pattern, line)`. -/
def searchBackup (l : Line) : Option (Line × Nat × Nat × Line) :=
  searchWith matchBackupAt l

/-- Boolean test for a main-pattern hit. -/
def mainHit (l : Line) : Bool := (searchMain l).isSome

/-- Boolean test for a note-pattern hit. -/
def noteHit (l : Line) : Bool := (searchNote l).isSome

/-- `re.search(fixit_pattern, line)` with
`fixit_pattern = \s*([\^~]+)\s*`: since both `\s*` may be empty, the
search succeeds exactly when the line contains a caret or tilde. -/
def fixitHit (l : Line) : Bool :=
  l.any (fun c => c = '^' || c = '~')

/-- `re.search(code_context_pattern, line)` with
`code_context_pattern = ^\s+.*$` (anchored at the line start, no
multiline flag): on a newline-free line this holds exactly when the
first character is whitespace. -/
def codeCtxHit (l : Line) : Bool :=
  match l with
  | [] => false
  | c :: _ => isPySpace c

/-- The primary classifier cascade of the scan: `main_pattern`, then
`alt_pattern` (column defaults to 1), then `concurrency_pattern`, then
`backup_concurrency_pattern` (both of kind warning).  Each branch
applies `.strip()` to the extracted message exactly as the source does.
Returns `(file_path, line_number, column, kind, message)`. -/
def primaryGroups (l : Line) : Option (Line × Nat × Nat × IssueKind × Line) :=
  match searchMain l with
  | some (fp, ln, col, k, msg) => some (fp, ln, col, k, pyStrip msg)
  | none =>
    match searchAlt l with
    | some (fp, ln, k, msg) => some (fp, ln, 1, k, pyStrip msg)
    | none =>
      match searchConc l with
      | some (fp, ln, col, msg) => some (fp, ln, col, IssueKind.warning, pyStrip msg)
      | none =>
        match searchBackup l with
        | some (fp, ln, col, msg) => some (fp, ln, col, IssueKind.warning, pyStrip msg)
        | none => none

/-- Does the primary cascade classify this line as a warning header? -/
def isWarningHeader (l : Line) : Bool :=
  match primaryGroups l with
  | some (_, _, _, k, _) => decide (k = IssueKind.warning)
  | none => false

/-- A note attached to a diagnostic: the dict built in the lookahead
loop.  `type` is `"note"` or `"implicit_fix"`; absent dict keys are
`none`. -/
structure Note where
  type : Line
  message : Line
  file_path : Line
  line_number : Nat
  column : Nat
  suggested_fix : Option Line
  code_context : Option Line
  fixit_indicator : Option Line
deriving DecidableEq

/-- The `DiagnosticIssue` dataclass. -/
structure DiagnosticIssue where
  type : IssueKind
  message : Line
  file_path : Option Line
  line_number : Option Nat
  column : Option Nat
  character_range : Option Line
  code : Option Line
  notes : List Note
deriving DecidableEq

/-- Placeholder issue used only as the default of `List.headD` in
statements about the head of a parse result. -/
def emptyIssue : DiagnosticIssue :=
  ⟨IssueKind.error, [], none, none, none, none, none, []⟩

/-- Placeholder note used only as the default of `List.headD` in
statements about the first note of an issue. -/
def emptyNote : Note :=
  ⟨[], [], [], 0, 0, none, none, none⟩

/-- The `current_code_context` dict, keyed by `f"{file_path}:{line_number}"`.
Since `[^:]+` capture groups never contain a colon, that string key is in
bijection with the pair `(file_path, line_number)`, which we use as the
key type.  Assignment prepends; lookup takes the most recent entry. -/
abbrev Ctx := List ((Line × Nat) × Line)

/-- Dict assignment `current_code_context[key] = value`. -/
def ctxInsert (k : Line × Nat) (v : Line) (m : Ctx) : Ctx :=
  (k, v) :: m

/-- Dict lookup. -/
def ctxFind (k : Line × Nat) : Ctx → Option Line
  | [] => none
  | (k2, v) :: rest => if k2 = k then some v else ctxFind k rest

/-- Python truthiness of `diagnostic.code` (`None` and `""` are falsy). -/
def codeFalsy : Option Line → Bool
  | none => true
  | some l => l.isEmpty

/-- `issues.append(diagnostic)`: prepend the completed diagnostic to the
issues produced by the rest of the scan, threading the context map. -/
def withIssue (d : DiagnosticIssue) (r : List DiagnosticIssue × Ctx) :
    List DiagnosticIssue × Ctx :=
  (d :: r.1, r.2)

/-- Result of the lookahead loop: the owning diagnostic's `code`,
`character_range` and `notes` fields, plus the final cursor `j`. -/
structure LookState where
  code : Option Line
  crange : Option Line
  notes : List Note
  j : Nat
deriving DecidableEq

/-- The lookahead loop (`while j < len(lines)` inside `_parse_log_file`):
classify the line at `j` as note / fix-it indicator / code context, or
break.  `fp`, `ln`, `col` are the owning diagnostic's location (copied
into implicit fix notes).  The loop only reads `ctx`; it never writes.
Fuel is an upper bound on the number of iterations; each iteration
requires `j < lines.length` and advances `j` by at least one, so any fuel
of at least `lines.length` is enough (proved below). -/
def lookahead (lines : List Line) (ctx : Ctx) (fp : Line) (ln col : Nat) :
    Nat → Option Line → Option Line → List Note → Nat → LookState
  | 0, code, cr, notes, j => ⟨code, cr, notes, j⟩
  | fuel + 1, code, cr, notes, j =>
    if decide (j < lines.length) then
      let cur := lines.getD j []
      match searchNote cur with
      | some (nfp, nln, ncol, nmsg) =>
        let cctx := ctxFind (nfp, nln) ctx
        if decide (j + 1 < lines.length) && fixitHit (lines.getD (j + 1) []) then
          let ind := pyRstrip (lines.getD (j + 1) [])
          if decide (j + 2 < lines.length) && !mainHit (lines.getD (j + 2) [])
              && !noteHit (lines.getD (j + 2) []) then
            lookahead lines ctx fp ln col fuel code cr
              (notes ++ [⟨("note").data, pyStrip nmsg, nfp, nln, ncol,
                some (pyStrip (lines.getD (j + 2) [])), cctx, some ind⟩])
              (j + 3)
          else
            lookahead lines ctx fp ln col fuel code cr
              (notes ++ [⟨("note").data, pyStrip nmsg, nfp, nln, ncol,
                none, cctx, some ind⟩])
              (j + 2)
        else
          lookahead lines ctx fp ln col fuel code cr
            (notes ++ [⟨("note").data, pyStrip nmsg, nfp, nln, ncol,
              none, cctx, none⟩])
            (j + 1)
      | none =>
        if fixitHit cur then
          let caret := pyRstrip cur
          let code2 :=
            if codeFalsy code && decide (0 < j) && !mainHit (lines.getD (j - 1) [])
                && !noteHit (lines.getD (j - 1) []) then
              some (pyRstrip (lines.getD (j - 1) []))
            else code
          if decide (j + 1 < lines.length) && !mainHit (lines.getD (j + 1) [])
              && !noteHit (lines.getD (j + 1) [])
              && !fixitHit (lines.getD (j + 1) []) then
            lookahead lines ctx fp ln col fuel code2 (some caret)
              (notes ++ [⟨("implicit_fix").data, ("Fix suggestion").data, fp, ln, col,
                some (pyStrip (lines.getD (j + 1) [])), none, some caret⟩])
              (j + 2)
          else
            lookahead lines ctx fp ln col fuel code2 (some caret) notes (j + 1)
        else if codeCtxHit cur then
          let code2 := if codeFalsy code then some (pyRstrip cur) else code
          lookahead lines ctx fp ln col fuel code2 cr notes (j + 1)
        else ⟨code, cr, notes, j⟩
    else ⟨code, cr, notes, j⟩

/-- The outer scan (`while i < len(lines)` in `_parse_log_file`): run
the primary cascade at `i`; on no match advance by one; on a warning
match with warnings excluded advance by one and skip the lookahead; on a
retained match capture the following line as code context when it is not
a main-pattern line and not path-prefixed (also recording it in the
shared map), run the lookahead from `i + 1`, emit the diagnostic and
resume at the lookahead's final cursor.  Returns the issue list and the
final `current_code_context` map. -/
def parseLoop (lines : List Line) (iw : Bool) :
    Nat → Ctx → Nat → (List DiagnosticIssue × Ctx)
  | 0, ctx, _ => ([], ctx)
  | fuel + 1, ctx, i =>
    if decide (i < lines.length) then
      match primaryGroups (lines.getD i []) with
      | none => parseLoop lines iw fuel ctx (i + 1)
      | some (fp, ln, col, kind, msg) =>
        if decide (kind = IssueKind.warning) && !iw then
          parseLoop lines iw fuel ctx (i + 1)
        else
          let cap := decide (i + 1 < lines.length)
            && !mainHit (lines.getD (i + 1) [])
            && !startsWithSlash (lines.getD (i + 1) [])
          let code0 := if cap then some (pyRstrip (lines.getD (i + 1) [])) else none
          let ctx2 := if cap then ctxInsert (fp, ln) (pyRstrip (lines.getD (i + 1) [])) ctx else ctx
          let st := lookahead lines ctx2 fp ln col (lines.length + 1) code0 none [] (i + 1)
          let d : DiagnosticIssue :=
            ⟨kind, msg, some fp, some ln, some col, st.crange, st.code, st.notes⟩
          withIssue d (parseLoop lines iw fuel ctx2 st.j)
    else ([], ctx)

/-- Instrumented shadow of `parseLoop` that also records, for every
emitted diagnostic, the input line index at which its primary pattern
matched.  Used to state the order-preservation property; its projection
to the issues is proved equal to `parseLoop`. -/
def parseLoopIdx (lines : List Line) (iw : Bool) :
    Nat → Ctx → Nat → List (Nat × DiagnosticIssue)
  | 0, _, _ => []
  | fuel + 1, ctx, i =>
    if decide (i < lines.length) then
      match primaryGroups (lines.getD i []) with
      | none => parseLoopIdx lines iw fuel ctx (i + 1)
      | some (fp, ln, col, kind, msg) =>
        if decide (kind = IssueKind.warning) && !iw then
          parseLoopIdx lines iw fuel ctx (i + 1)
        else
          let cap := decide (i + 1 < lines.length)
            && !mainHit (lines.getD (i + 1) [])
            && !startsWithSlash (lines.getD (i + 1) [])
          let code0 := if cap then some (pyRstrip (lines.getD (i + 1) [])) else none
          let ctx2 := if cap then ctxInsert (fp, ln) (pyRstrip (lines.getD (i + 1) [])) ctx else ctx
          let st := lookahead lines ctx2 fp ln col (lines.length + 1) code0 none [] (i + 1)
          let d : DiagnosticIssue :=
            ⟨kind, msg, some fp, some ln, some col, st.crange, st.code, st.notes⟩
          (i, d) :: parseLoopIdx lines iw fuel ctx2 st.j
    else []

/-- The parse of a line sequence together with the final shared
code-context map. -/
def pyParseFull (lines : List Line) (iw : Bool) : List DiagnosticIssue × Ctx :=
  parseLoop lines iw (lines.length + 1) [] 0

/-- The parse with each issue tagged by the line index of its primary
match. -/
def pyParseIdx (lines : List Line) (iw : Bool) : List (Nat × DiagnosticIssue) :=
  parseLoopIdx lines iw (lines.length + 1) [] 0

/-- The issue list produced by the scan of `_parse_log_file` on an
already-split line sequence. -/
def pyParse (lines : List Line) (iw : Bool) : List DiagnosticIssue :=
  (pyParseFull lines iw).1

/-- Python `output.split('\n')`. -/
def splitNl : Line → List Line
  | [] => [[]]
  | c :: rest =>
    if c = '\n' then [] :: splitNl rest
    else
      match splitNl rest with
      | [] => [[c]]
      | p :: ps => (c :: p) :: ps

/-- `_parse_log_file`: the text-extraction collaborator either yields
the raw decompressed text (then split on newlines and scanned) or fails;
a failure is caught and converted into the single synthetic Error
diagnostic whose message embeds the failure description and whose
`file_path` is the log file identifier. -/
def parseLogFile (log_file : Line) (extracted : Except Line Line)
    (include_warnings : Bool) : List DiagnosticIssue :=
  match extracted with
  | Except.ok output => pyParse (splitNl output) include_warnings
  | Except.error e =>
    [⟨IssueKind.error, ("Error parsing log file: ").data ++ e, some log_file,
      none, none, none, none, []⟩]

/-- The result record assembled by `extract_diagnostics`. -/
structure ExtractResult where
  success : Bool
  message : Option Line
  log_file : Option Line
  errors : List DiagnosticIssue
  warnings : List DiagnosticIssue
  error_count : Nat
  warning_count : Nat
deriving DecidableEq

/-- `extract_diagnostics`: the log locator (`get_latest_build_log`, a
filesystem collaborator) is modelled by its outcome `latestLog`.  With
no log artifact the result is `success := false` with empty issue lists;
otherwise the log is parsed and the issues are bucketed by kind, with
warnings kept only when `include_warnings` is set. -/
def extract_diagnostics (project_dir_name : Line) (latestLog : Option Line)
    (extracted : Except Line Line) (include_warnings : Bool) : ExtractResult :=
  match latestLog with
  | none =>
    ⟨false, some (("No build logs found for project ").data ++ project_dir_name),
      none, [], [], 0, 0⟩
  | some log_file =>
    let issues := parseLogFile log_file extracted include_warnings
    let errs := issues.filter (fun d => decide (d.type = IssueKind.error))
    let warns := issues.filter (fun d =>
      decide (d.type = IssueKind.warning) && include_warnings)
    ⟨true, none, some log_file, errs, warns, errs.length, warns.length⟩

/-- A map entry that originates from the code-capture step of some
retained diagnostic: key = that diagnostic's `(file_path, line_number)`,
value = the rstripped line following the diagnostic header, and the
capture guard (next line exists, is not a main-pattern line and is not
path-prefixed) held. -/
def IsCaptureWrite (lines : List Line) (e : (Line × Nat) × Line) : Prop :=
  ∃ m fp ln col kind msg,
    primaryGroups (lines.getD m []) = some (fp, ln, col, kind, msg) ∧
    m + 1 < lines.length ∧
    mainHit (lines.getD (m + 1) []) = false ∧
    startsWithSlash (lines.getD (m + 1) []) = false ∧
    e = ((fp, ln), pyRstrip (lines.getD (m + 1) []))

/-- A line consisting solely of caret and tilde characters. -/
def caretOnly (l : Line) : Bool :=
  !l.isEmpty && l.all (fun c => c = '^' || c = '~')

/-! ### Helper lemmas -/

/-- The lookahead never moves its cursor backwards. -/
theorem lookahead_le (lines : List Line) (ctx : Ctx) (fp : Line) (ln col : Nat) :
    ∀ fuel code cr notes j, j ≤ (lookahead lines ctx fp ln col fuel code cr notes j).j := by
  intro fuel
  induction fuel with
  | zero => intro code cr notes j; exact Nat.le_refl _
  | succ f ih =>
    intro code cr notes j
    rw [lookahead]
    by_cases hlt : (decide (j < lines.length)) = true
    case neg => rw [if_neg hlt]
    case pos =>
    rw [if_pos hlt]
    cases hsn : searchNote (lines.getD j []) with
    | some g =>
      obtain ⟨nfp, nln, ncol, nmsg⟩ := g
      simp only [hsn]
      by_cases h1 : (decide (j + 1 < lines.length)
          && fixitHit (lines.getD (j + 1) [])) = true
      · rw [if_pos h1]
        by_cases h2 : (decide (j + 2 < lines.length) && !mainHit (lines.getD (j + 2) [])
            && !noteHit (lines.getD (j + 2) [])) = true
        · rw [if_pos h2]; exact Nat.le_trans (Nat.le_add_right _ _) (ih _ _ _ _)
        · rw [if_neg h2]; exact Nat.le_trans (Nat.le_add_right _ _) (ih _ _ _ _)
      · rw [if_neg h1]; exact Nat.le_trans (Nat.le_add_right _ _) (ih _ _ _ _)
    | none =>
      simp only [hsn]
      by_cases hfx : fixitHit (lines.getD j []) = true
      · rw [if_pos hfx]
        by_cases hg : (decide (j + 1 < lines.length) && !mainHit (lines.getD (j + 1) [])
            && !noteHit (lines.getD (j + 1) [])
            && !fixitHit (lines.getD (j + 1) [])) = true
        · rw [if_pos hg]; exact Nat.le_trans (Nat.le_add_right _ _) (ih _ _ _ _)
        · rw [if_neg hg]; exact Nat.le_trans (Nat.le_add_right _ _) (ih _ _ _ _)
      · rw [if_neg hfx]
        by_cases hcc : codeCtxHit (lines.getD j []) = true
        · rw [if_pos hcc]; exact Nat.le_trans (Nat.le_add_right _ _) (ih _ _ _ _)
        · rw [if_neg hcc]

/-- The lookahead leaves its cursor inside `[j, lines.length]` when it
starts in bounds. -/
theorem lookahead_le_len (lines : List Line) (ctx : Ctx) (fp : Line) (ln col : Nat) :
    ∀ fuel code cr notes j, j ≤ lines.length →
      (lookahead lines ctx fp ln col fuel code cr notes j).j ≤ lines.length := by
  intro fuel
  induction fuel with
  | zero => intro code cr notes j hj; exact hj
  | succ f ih =>
    intro code cr notes j hj
    rw [lookahead]
    by_cases hlt : (decide (j < lines.length)) = true
    case neg => rw [if_neg hlt]; exact hj
    case pos =>
    rw [if_pos hlt]
    rw [decide_eq_true_iff] at hlt
    cases hsn : searchNote (lines.getD j []) with
    | some g =>
      obtain ⟨nfp, nln, ncol, nmsg⟩ := g
      simp only [hsn]
      by_cases h1 : (decide (j + 1 < lines.length)
          && fixitHit (lines.getD (j + 1) [])) = true
      · rw [if_pos h1]
        rw [Bool.and_eq_true, decide_eq_true_iff] at h1
        by_cases h2 : (decide (j + 2 < lines.length) && !mainHit (lines.getD (j + 2) [])
            && !noteHit (lines.getD (j + 2) [])) = true
        · rw [if_pos h2]
          rw [Bool.and_eq_true, Bool.and_eq_true, decide_eq_true_iff] at h2
          exact ih _ _ _ _ (by omega)
        · rw [if_neg h2]; exact ih _ _ _ _ (by omega)
      · rw [if_neg h1]; exact ih _ _ _ _ (by omega)
    | none =>
      simp only [hsn]
      by_cases hfx : fixitHit (lines.getD j []) = true
      · rw [if_pos hfx]
        by_cases hg : (decide (j + 1 < lines.length) && !mainHit (lines.getD (j + 1) [])
            && !noteHit (lines.getD (j + 1) [])
            && !fixitHit (lines.getD (j + 1) [])) = true
        · rw [if_pos hg]
          rw [Bool.and_eq_true, Bool.and_eq_true, Bool.and_eq_true,
            decide_eq_true_iff] at hg
          exact ih _ _ _ _ (by omega)
        · rw [if_neg hg]; exact ih _ _ _ _ (by omega)
      · rw [if_neg hfx]
        by_cases hcc : codeCtxHit (lines.getD j []) = true
        · rw [if_pos hcc]; exact ih _ _ _ _ (by omega)
        · rw [if_neg hcc]; exact hj

/-- Fuel irrelevance of the lookahead: any two fuel amounts that both
cover the remaining line count give the same result, so the fuelled
function computes the Python `while` loop. -/
theorem lookahead_fuel (lines : List Line) (ctx : Ctx) (fp : Line) (ln col : Nat) :
    ∀ f1 f2 code cr notes j, lines.length ≤ j + f1 → lines.length ≤ j + f2 →
      lookahead lines ctx fp ln col f1 code cr notes j =
        lookahead lines ctx fp ln col f2 code cr notes j := by
  intro f1
  induction f1 with
  | zero =>
    intro f2 code cr notes j h1 h2
    cases f2 with
    | zero => rfl
    | succ f2 =>
      rw [lookahead, lookahead]
      have hn : ¬ ((decide (j < lines.length)) = true) := by
        rw [decide_eq_true_iff]; omega
      rw [if_neg hn]
  | succ f ih =>
    intro f2 code cr notes j h1 h2
    cases f2 with
    | zero =>
      rw [lookahead, lookahead]
      have hn : ¬ ((decide (j < lines.length)) = true) := by
        rw [decide_eq_true_iff]; omega
      rw [if_neg hn]
    | succ f2 =>
      rw [lookahead, lookahead]
      by_cases hlt : (decide (j < lines.length)) = true
      case neg => rw [if_neg hlt, if_neg hlt]
      case pos =>
      rw [if_pos hlt, if_pos hlt]
      rw [decide_eq_true_iff] at hlt
      cases hsn : searchNote (lines.getD j []) with
      | some g =>
        obtain ⟨nfp, nln, ncol, nmsg⟩ := g
        simp only [hsn]
        by_cases hc1 : (decide (j + 1 < lines.length)
            && fixitHit (lines.getD (j + 1) [])) = true
        · simp only [if_pos hc1]
          by_cases hc2 : (decide (j + 2 < lines.length) && !mainHit (lines.getD (j + 2) [])
              && !noteHit (lines.getD (j + 2) [])) = true
          · simp only [if_pos hc2]; apply ih f2 <;> omega
          · simp only [if_neg hc2]; apply ih f2 <;> omega
        · simp only [if_neg hc1]; apply ih f2 <;> omega
      | none =>
        simp only [hsn]
        by_cases hfx : fixitHit (lines.getD j []) = true
        · simp only [if_pos hfx]
          by_cases hg : (decide (j + 1 < lines.length) && !mainHit (lines.getD (j + 1) [])
              && !noteHit (lines.getD (j + 1) [])
              && !fixitHit (lines.getD (j + 1) [])) = true
          · simp only [if_pos hg]; apply ih f2 <;> omega
          · simp only [if_neg hg]; apply ih f2 <;> omega
        · simp only [if_neg hfx]
          by_cases hcc : codeCtxHit (lines.getD j []) = true
          · simp only [if_pos hcc]; apply ih f2 <;> omega
          · simp only [if_neg hcc]

/-- Fuel irrelevance of the outer scan: any two fuel amounts covering
the remaining line count give the same result.  Together with
`lookahead_le` this is the termination argument: every outer iteration
strictly increases the cursor, so `lines.length - i` bounds the number
of remaining iterations. -/
theorem parseLoop_fuel (lines : List Line) (iw : Bool) :
    ∀ f1 f2 ctx i, lines.length ≤ i + f1 → lines.length ≤ i + f2 →
      parseLoop lines iw f1 ctx i = parseLoop lines iw f2 ctx i := by
  intro f1
  induction f1 with
  | zero =>
    intro f2 ctx i h1 h2
    cases f2 with
    | zero => rfl
    | succ f2 =>
      rw [parseLoop, parseLoop]
      have hn : ¬ ((decide (i < lines.length)) = true) := by
        rw [decide_eq_true_iff]; omega
      rw [if_neg hn]
  | succ f ih =>
    intro f2 ctx i h1 h2
    cases f2 with
    | zero =>
      rw [parseLoop, parseLoop]
      have hn : ¬ ((decide (i < lines.length)) = true) := by
        rw [decide_eq_true_iff]; omega
      rw [if_neg hn]
    | succ f2 =>
      rw [parseLoop, parseLoop]
      by_cases hlt : (decide (i < lines.length)) = true
      case neg => simp only [if_neg hlt]
      case pos =>
      simp only [if_pos hlt]
      rw [decide_eq_true_iff] at hlt
      cases hpg : primaryGroups (lines.getD i []) with
      | none =>
        simp only [hpg]
        apply ih f2 <;> omega
      | some g =>
        obtain ⟨fp, ln, col, kind, msg⟩ := g
        simp only [hpg]
        by_cases hskip : (decide (kind = IssueKind.warning) && !iw) = true
        · simp only [if_pos hskip]; apply ih f2 <;> omega
        · simp only [if_neg hskip]
          refine congrArg (withIssue _) (ih f2 _ _ ?_ ?_)
          · exact Nat.le_trans (by omega)
              (Nat.add_le_add_right (lookahead_le _ _ _ _ _ _ _ _ _ _) f)
          · exact Nat.le_trans (by omega)
              (Nat.add_le_add_right (lookahead_le _ _ _ _ _ _ _ _ _ _) f2)

/-- The scan only prepends entries to the shared code-context map, and
every entry it adds is a capture write: it is keyed by some retained
diagnostic's `(file_path, line_number)` and stores the rstripped line
following that diagnostic's header, recorded under the capture guard.
In particular the note-processing lookahead never writes to the map. -/
theorem parseLoop_ctx_append (lines : List Line) (iw : Bool) :
    ∀ fuel ctx i, ∃ w, (parseLoop lines iw fuel ctx i).2 = w ++ ctx ∧
      ∀ e ∈ w, IsCaptureWrite lines e := by
  intro fuel
  induction fuel with
  | zero =>
    intro ctx i
    exact ⟨[], rfl, by intro e he; cases he⟩
  | succ f ih =>
    intro ctx i
    rw [parseLoop]
    by_cases hlt : (decide (i < lines.length)) = true
    case neg =>
      rw [if_neg hlt]
      exact ⟨[], rfl, by intro e he; cases he⟩
    case pos =>
    simp only [if_pos hlt]
    rw [decide_eq_true_iff] at hlt
    cases hpg : primaryGroups (lines.getD i []) with
    | none => simp only [hpg]; exact ih ctx (i + 1)
    | some g =>
      obtain ⟨fp, ln, col, kind, msg⟩ := g
      simp only [hpg]
      by_cases hskip : (decide (kind = IssueKind.warning) && !iw) = true
      · simp only [if_pos hskip]; exact ih ctx (i + 1)
      · simp only [if_neg hskip]
        by_cases hcap : (decide (i + 1 < lines.length)
            && !mainHit (lines.getD (i + 1) [])
            && !startsWithSlash (lines.getD (i + 1) [])) = true
        · simp only [if_pos hcap]
          obtain ⟨w, hw, hmem⟩ := ih (ctxInsert (fp, ln) (pyRstrip (lines.getD (i + 1) [])) ctx) _
          refine ⟨w ++ [((fp, ln), pyRstrip (lines.getD (i + 1) []))], ?_, ?_⟩
          · rw [withIssue, hw, ctxInsert, List.append_assoc, List.singleton_append]
          · intro e he
            rw [List.mem_append, List.mem_singleton] at he
            rcases he with he | he
            · exact hmem e he
            · subst he
              rw [Bool.and_eq_true, Bool.and_eq_true, decide_eq_true_iff,
                Bool.not_eq_true', Bool.not_eq_true'] at hcap
              exact ⟨i, fp, ln, col, kind, msg, hpg, hcap.1.1, hcap.1.2, hcap.2, rfl⟩
        · simp only [if_neg hcap]
          obtain ⟨w, hw, hmem⟩ := ih ctx _
          exact ⟨w, by rw [withIssue, hw], hmem⟩

/-- The instrumented scan projects to the plain scan. -/
theorem parseLoopIdx_snd (lines : List Line) (iw : Bool) :
    ∀ fuel ctx i,
      (parseLoopIdx lines iw fuel ctx i).map Prod.snd =
        (parseLoop lines iw fuel ctx i).1 := by
  intro fuel
  induction fuel with
  | zero => intro ctx i; rfl
  | succ f ih =>
    intro ctx i
    rw [parseLoop, parseLoopIdx]
    by_cases hlt : (decide (i < lines.length)) = true
    case neg => simp only [if_neg hlt]; rfl
    case pos =>
    simp only [if_pos hlt]
    cases hpg : primaryGroups (lines.getD i []) with
    | none => simp only [hpg]; exact ih ctx (i + 1)
    | some g =>
      obtain ⟨fp, ln, col, kind, msg⟩ := g
      simp only [hpg]
      by_cases hskip : (decide (kind = IssueKind.warning) && !iw) = true
      · simp only [if_pos hskip]; exact ih ctx (i + 1)
      · simp only [if_neg hskip]
        rw [List.map_cons, withIssue]
        exact congrArg (List.cons _) (ih _ _)

/-- Every index recorded by the instrumented scan is at least the
starting cursor. -/
theorem parseLoopIdx_ge (lines : List Line) (iw : Bool) :
    ∀ fuel ctx i p, p ∈ parseLoopIdx lines iw fuel ctx i → i ≤ p.1 := by
  intro fuel
  induction fuel with
  | zero => intro ctx i p hp; cases hp
  | succ f ih =>
    intro ctx i p hp
    rw [parseLoopIdx] at hp
    by_cases hlt : (decide (i < lines.length)) = true
    case neg => rw [if_neg hlt] at hp; cases hp
    case pos =>
    simp only [if_pos hlt] at hp
    cases hpg : primaryGroups (lines.getD i []) with
    | none =>
      simp only [hpg] at hp
      exact Nat.le_trans (Nat.le_succ i) (ih ctx (i + 1) p hp)
    | some g =>
      obtain ⟨fp, ln, col, kind, msg⟩ := g
      simp only [hpg] at hp
      by_cases hskip : (decide (kind = IssueKind.warning) && !iw) = true
      · simp only [if_pos hskip] at hp
        exact Nat.le_trans (Nat.le_succ i) (ih ctx (i + 1) p hp)
      · simp only [if_neg hskip] at hp
        rw [List.mem_cons] at hp
        rcases hp with hp | hp
        · subst hp; exact Nat.le_refl _
        · refine Nat.le_trans ?_ (ih _ _ p hp)
          exact Nat.le_trans (Nat.le_succ i) (lookahead_le _ _ _ _ _ _ _ _ _ _)

/-- The indices recorded by the instrumented scan are strictly
increasing: diagnostics are emitted in first-occurrence order of their
matching lines. -/
theorem parseLoopIdx_sorted (lines : List Line) (iw : Bool) :
    ∀ fuel ctx i,
      (parseLoopIdx lines iw fuel ctx i).Pairwise (fun a b => a.1 < b.1) := by
  intro fuel
  induction fuel with
  | zero => intro ctx i; exact List.Pairwise.nil
  | succ f ih =>
    intro ctx i
    rw [parseLoopIdx]
    by_cases hlt : (decide (i < lines.length)) = true
    case neg => rw [if_neg hlt]; exact List.Pairwise.nil
    case pos =>
    simp only [if_pos hlt]
    cases hpg : primaryGroups (lines.getD i []) with
    | none => simp only [hpg]; exact ih ctx (i + 1)
    | some g =>
      obtain ⟨fp, ln, col, kind, msg⟩ := g
      simp only [hpg]
      by_cases hskip : (decide (kind = IssueKind.warning) && !iw) = true
      · simp only [if_pos hskip]; exact ih ctx (i + 1)
      · simp only [if_neg hskip]
        refine List.Pairwise.cons ?_ (ih _ _)
        intro p hp
        have h1 := parseLoopIdx_ge lines iw f _ _ p hp
        exact Nat.lt_of_lt_of_le (Nat.lt_succ_self i)
          (Nat.le_trans (lookahead_le _ _ _ _ _ _ _ _ _ _) h1)

/-- A list all of whose elements satisfy `p` is its own `takeWhile`. -/
theorem takeWhile_eq_self_of_all {p : Char → Bool} :
    ∀ {l : Line}, l.all p = true → l.takeWhile p = l := by
  intro l
  induction l with
  | nil => intro _; rfl
  | cons c rest ih =>
    intro h
    rw [List.all_cons, Bool.and_eq_true] at h
    rw [List.takeWhile_cons, h.1]
    exact congrArg (List.cons c) (ih h.2)

/-- A list none of whose elements satisfies `p` is its own `dropWhile`. -/
theorem dropWhile_eq_self_of_all_not {p : Char → Bool} :
    ∀ {l : Line}, (∀ a ∈ l, p a = false) → l.dropWhile p = l := by
  intro l
  induction l with
  | nil => intro _; rfl
  | cons c rest _ =>
    intro h
    rw [List.dropWhile_cons, h c (List.mem_cons_self c rest)]
    simp

/-- The main pattern cannot match a line without a colon. -/
theorem matchMainAt_none_of_no_colon {l : Line}
    (h : l.all (fun c => !(c = ':')) = true) : matchMainAt l = none := by
  rw [matchMainAt]
  cases hl : l with
  | nil => rfl
  | cons c rest =>
    subst hl
    rw [takeWhile_eq_self_of_all h]
    simp only [List.isEmpty_cons, List.drop_length]
    rw [if_neg (by simp)]
    rfl

/-- The note pattern cannot match a line without a colon. -/
theorem matchNoteAt_none_of_no_colon {l : Line}
    (h : l.all (fun c => !(c = ':')) = true) : matchNoteAt l = none := by
  rw [matchNoteAt]
  cases hl : l with
  | nil => rfl
  | cons c rest =>
    subst hl
    rw [takeWhile_eq_self_of_all h]
    simp only [List.isEmpty_cons, List.drop_length]
    rw [if_neg (by simp)]
    rfl

/-- `re.search` of the main pattern fails on a colon-free line. -/
theorem searchMain_none_of_no_colon :
    ∀ {l : Line}, l.all (fun c => !(c = ':')) = true → searchMain l = none := by
  intro l
  induction l with
  | nil => intro _; rfl
  | cons c rest ih =>
    intro h
    have h2 := h
    rw [List.all_cons, Bool.and_eq_true] at h2
    rw [searchMain, searchWith, matchMainAt_none_of_no_colon h]
    exact ih h2.2

/-- `re.search` of the note pattern fails on a colon-free line. -/
theorem searchNote_none_of_no_colon :
    ∀ {l : Line}, l.all (fun c => !(c = ':')) = true → searchNote l = none := by
  intro l
  induction l with
  | nil => intro _; rfl
  | cons c rest ih =>
    intro h
    have h2 := h
    rw [List.all_cons, Bool.and_eq_true] at h2
    rw [searchNote, searchWith, matchNoteAt_none_of_no_colon h]
    exact ih h2.2

/-- A caret/tilde-only line contains no colon. -/
theorem caretOnly_no_colon {l : Line} (h : caretOnly l = true) :
    l.all (fun c => !(c = ':')) = true := by
  rw [caretOnly, Bool.and_eq_true] at h
  rw [List.all_eq_true]
  intro c hc
  have := (List.all_eq_true.mp h.2) c hc
  rw [Bool.or_eq_true, decide_eq_true_iff, decide_eq_true_iff] at this
  rcases this with h1 | h1 <;> subst h1 <;> decide

/-- A caret/tilde-only line is hit by the fix-it indicator search. -/
theorem caretOnly_fixitHit {l : Line} (h : caretOnly l = true) :
    fixitHit l = true := by
  rw [caretOnly, Bool.and_eq_true] at h
  cases hl : l with
  | nil => subst hl; simp at h
  | cons c rest =>
    subst hl
    rw [List.all_cons, Bool.and_eq_true] at h
    rw [fixitHit, List.any_cons, h.2.1, Bool.true_or]

/-- None of the characters of a caret/tilde-only line is whitespace. -/
theorem caretOnly_no_space {l : Line} (h : caretOnly l = true) :
    ∀ a ∈ l, isPySpace a = false := by
  rw [caretOnly, Bool.and_eq_true] at h
  intro a ha
  have := (List.all_eq_true.mp h.2) a ha
  rw [Bool.or_eq_true, decide_eq_true_iff, decide_eq_true_iff] at this
  rcases this with h1 | h1 <;> subst h1 <;> decide

/-- `rstrip` leaves a caret/tilde-only line unchanged. -/
theorem caretOnly_pyRstrip {l : Line} (h : caretOnly l = true) :
    pyRstrip l = l := by
  rw [pyRstrip, dropWhile_eq_self_of_all_not, List.reverse_reverse]
  intro a ha
  exact caretOnly_no_space h a (List.mem_reverse.mp ha)

/-- `strip` leaves a caret/tilde-only line unchanged. -/
theorem caretOnly_pyStrip {l : Line} (h : caretOnly l = true) :
    pyStrip l = l := by
  rw [pyStrip, dropWhile_eq_self_of_all_not (caretOnly_no_space h)]
  exact caretOnly_pyRstrip h

/-- A caret/tilde-only line is not path-prefixed. -/
theorem caretOnly_startsWithSlash {l : Line} (h : caretOnly l = true) :
    startsWithSlash l = false := by
  rw [startsWithSlash, caretOnly_pyStrip h]
  have h2 := h
  rw [caretOnly, Bool.and_eq_true] at h2
  cases hl : l with
  | nil => rfl
  | cons c rest =>
    subst hl
    rw [List.all_cons, Bool.and_eq_true] at h2
    have := h2.2.1
    rw [Bool.or_eq_true, decide_eq_true_iff, decide_eq_true_iff] at this
    rcases this with h1 | h1 <;> subst h1 <;> rfl

/-- A caret/tilde-only line is nonempty after `rstrip` (its characters
are not whitespace), so `diagnostic.code` holding it is truthy. -/
theorem caretOnly_code_truthy {l : Line} (h : caretOnly l = true) :
    codeFalsy (some (pyRstrip l)) = false := by
  rw [caretOnly_pyRstrip h, codeFalsy]
  rw [caretOnly, Bool.and_eq_true] at h
  rw [Bool.not_eq_true'] at h
  exact h.1

/-- An element read in bounds with `getD` is an element of the list. -/
theorem getD_mem {lines : List Line} {i : Nat} (h : i < lines.length) :
    lines.getD i [] ∈ lines := by
  rw [List.getD_eq_getElem lines [] h]
  exact List.getElem_mem h

/-- When no input line classifies as a warning header, the scan is
independent of `include_warnings`: the warning-skip branch is never
taken, and nothing else consults the flag. -/
theorem parseLoop_no_warning (lines : List Line)
    (h : ∀ l ∈ lines, isWarningHeader l = false) :
    ∀ fuel ctx i, parseLoop lines false fuel ctx i = parseLoop lines true fuel ctx i := by
  intro fuel
  induction fuel with
  | zero => intro ctx i; rfl
  | succ f ih =>
    intro ctx i
    rw [parseLoop, parseLoop]
    by_cases hlt : (decide (i < lines.length)) = true
    case neg => simp only [if_neg hlt]
    case pos =>
    simp only [if_pos hlt]
    rw [decide_eq_true_iff] at hlt
    cases hpg : primaryGroups (lines.getD i []) with
    | none => simp only [hpg]; exact ih ctx (i + 1)
    | some g =>
      obtain ⟨fp, ln, col, kind, msg⟩ := g
      simp only [hpg]
      have hw := h _ (getD_mem hlt)
      simp only [isWarningHeader, hpg] at hw
      have hns1 : ¬ ((decide (kind = IssueKind.warning) && !false) = true) := by
        simp [hw]
      have hns2 : ¬ ((decide (kind = IssueKind.warning) && !true) = true) := by
        simp
      rw [if_neg hns1, if_neg hns2]
      exact congrArg (withIssue _) (ih _ _)

/-- When no input line classifies as a warning header, every issue the
scan emits is Error-kind. -/
theorem parseLoop_all_error (lines : List Line) (iw : Bool)
    (h : ∀ l ∈ lines, isWarningHeader l = false) :
    ∀ fuel ctx i d, d ∈ (parseLoop lines iw fuel ctx i).1 →
      d.type = IssueKind.error := by
  intro fuel
  induction fuel with
  | zero => intro ctx i d hd; cases hd
  | succ f ih =>
    intro ctx i d hd
    rw [parseLoop] at hd
    by_cases hlt : (decide (i < lines.length)) = true
    case neg => rw [if_neg hlt] at hd; cases hd
    case pos =>
    simp only [if_pos hlt] at hd
    rw [decide_eq_true_iff] at hlt
    cases hpg : primaryGroups (lines.getD i []) with
    | none =>
      simp only [hpg] at hd
      exact ih ctx (i + 1) d hd
    | some g =>
      obtain ⟨fp, ln, col, kind, msg⟩ := g
      simp only [hpg] at hd
      have hw := h _ (getD_mem hlt)
      simp only [isWarningHeader, hpg] at hw
      have hkind : kind = IssueKind.error := by
        cases kind with
        | error => rfl
        | warning => simp at hw
      by_cases hskip : (decide (kind = IssueKind.warning) && !iw) = true
      · rw [if_pos hskip] at hd
        exact ih ctx (i + 1) d hd
      · rw [if_neg hskip] at hd
        rw [withIssue, List.mem_cons] at hd
        rcases hd with hd | hd
        · subst hd; exact hkind
        · exact ih _ _ d hd

/-- The characters of a line hit by the fix-it search are not all
whitespace, so `diagnostic.code` holding its `rstrip` is truthy. -/
theorem fixitHit_code_truthy {x : Line} (h : fixitHit x = true) :
    codeFalsy (some (pyRstrip x)) = false := by
  rw [codeFalsy]
  rw [fixitHit, List.any_eq_true] at h
  obtain ⟨c, hc, hcar⟩ := h
  by_contra hne
  rw [Bool.not_eq_false, List.isEmpty_eq_true, pyRstrip] at hne
  have hnil : x.reverse.dropWhile isPySpace = [] := by
    cases hdw : x.reverse.dropWhile isPySpace with
    | nil => rfl
    | cons a l => rw [hdw] at hne; simp at hne
  rw [List.dropWhile_eq_nil_iff] at hnil
  have hsp := hnil c (List.mem_reverse.mpr hc)
  rw [Bool.or_eq_true, decide_eq_true_iff, decide_eq_true_iff] at hcar
  rcases hcar with h1 | h1 <;> subst h1 <;> simp [isPySpace] at hsp

/-! ### Claim C1 — warning filter -/

/-- Claim C1, counterexample.  The claim states that for every input the
issue list with `include_warnings = false` equals the Error-kind
subsequence of the issue list with `include_warnings = true`.  On the
input `["w.swift:1:1: warning: w", " e.swift:2:2: error: bad"]` the
retained warning's lookahead consumes the indented error line as a code
context line, so the `true` parse yields no Error-kind issue at all,
while the `false` parse (which skips the warning with a bare cursor
increment) does emit the error.  The two sides differ. -/
theorem c1_warning_filter_counterexample :
    (pyParse [("w.swift:1:1: warning: w").data, (" e.swift:2:2: error: bad").data]
        true).filter (fun d => decide (d.type = IssueKind.error)) = [] ∧
    pyParse [("w.swift:1:1: warning: w").data, (" e.swift:2:2: error: bad").data]
        false ≠ [] ∧
    pyParse [("w.swift:1:1: warning: w").data, (" e.swift:2:2: error: bad").data]
        false ≠
      (pyParse [("w.swift:1:1: warning: w").data, (" e.swift:2:2: error: bad").data]
          true).filter (fun d => decide (d.type = IssueKind.error)) := by
  decide

/-- Claim C1, amended.  If no input line is classified as a warning by
the primary cascade, the scan never takes the warning-skip branch and
consults `include_warnings` nowhere else, so the parse with
`include_warnings = false` equals the parse with `include_warnings =
true`, every emitted issue is Error-kind, and the `false` parse
therefore equals the Error-kind subsequence of the `true` parse.  (For
general inputs the original equality fails: a retained warning's
lookahead may consume following lines — including error lines — and may
record code-context entries, neither of which happens when the warning
is skipped by a bare cursor increment.) -/
theorem c1_warning_filter_amended (lines : List Line)
    (h : ∀ l ∈ lines, isWarningHeader l = false) :
    pyParse lines false = pyParse lines true ∧
    (pyParse lines true).filter (fun d => decide (d.type = IssueKind.error)) =
      pyParse lines true := by
  constructor
  · rw [pyParse, pyParse, pyParseFull, pyParseFull, parseLoop_no_warning lines h]
  · rw [List.filter_eq_self]
    intro d hd
    rw [decide_eq_true_iff]
    exact parseLoop_all_error lines true h _ _ _ d hd

/-- Claim C1, witness for the amended theorem at a concrete input. -/
theorem c1_warning_filter_witness :
    (∀ l ∈ [("e.swift:1:2: error: bad").data, ("  let y = z").data],
      isWarningHeader l = false) ∧
    (pyParse [("e.swift:1:2: error: bad").data, ("  let y = z").data] false =
      pyParse [("e.swift:1:2: error: bad").data, ("  let y = z").data] true ∧
    (pyParse [("e.swift:1:2: error: bad").data, ("  let y = z").data] true).filter
        (fun d => decide (d.type = IssueKind.error)) =
      pyParse [("e.swift:1:2: error: bad").data, ("  let y = z").data] true) :=
  ⟨by decide, c1_warning_filter_amended _ (by decide)⟩

/-! ### Claim C2 — code-context map is never overwritten -/

/-- Claim C2, counterexample.  The claim states that once the shared
`code_context` map holds an entry for a coordinate key, no later step of
the scan replaces it with a different value.  On the input
`["a.swift:1:1: error: x", "foo", "a.swift:1:1: error: y", "bar"]` the
first diagnostic's capture step records `"foo"` under the key
`a.swift:1`, and the second diagnostic — at the same coordinate —
later records `"bar"` under the same key, so the lookup value changes
from `"foo"` to `"bar"` during the scan. -/
theorem c2_code_context_overwrite_counterexample :
    (pyParseFull [("a.swift:1:1: error: x").data, ("foo").data,
        ("a.swift:1:1: error: y").data, ("bar").data] true).2 =
      [((("a.swift").data, 1), ("bar").data),
       ((("a.swift").data, 1), ("foo").data)] ∧
    ctxFind (("a.swift").data, 1)
      (pyParseFull [("a.swift:1:1: error: x").data, ("foo").data,
        ("a.swift:1:1: error: y").data, ("bar").data] true).2 =
      some (("bar").data) ∧
    ("bar").data ≠ ("foo").data := by
  decide

/-- Claim C2, amended.  The shared map is append-only — the scan never
deletes or mutates existing entries — and every entry it adds is a
capture write: it is keyed by a retained diagnostic's
`(file_path, line_number)` and stores the rstripped line following that
diagnostic's header; the note-processing lookahead never writes to the
map, so later notes at a coordinate reuse the currently recorded
snippet unchanged.  However a later retained diagnostic at the same
coordinate may add a newer entry for the same key, changing the lookup
value — the entry is not immutable as the claim stated. -/
theorem c2_code_context_writes_amended (lines : List Line) (iw : Bool)
    (fuel : Nat) (ctx : Ctx) (i : Nat) :
    ∃ w, (parseLoop lines iw fuel ctx i).2 = w ++ ctx ∧
      ∀ e ∈ w, IsCaptureWrite lines e :=
  parseLoop_ctx_append lines iw fuel ctx i

/-! ### Claim C3 — extraction failure is converted, never propagated -/

/-- Claim C3, confirmed.  If obtaining or decoding the text stream
fails, `_parse_log_file` catches the exception and returns exactly one
Error-kind `DiagnosticIssue` whose message embeds the failure
description and whose `file_path` is the log file identifier; nothing is
thrown to the caller, and `extract_diagnostics` still reports
`success = true`. -/
theorem c3_extraction_failure_confirmed (p lf e : Line) (iw : Bool) :
    parseLogFile lf (Except.error e) iw =
      [⟨IssueKind.error, ("Error parsing log file: ").data ++ e, some lf,
        none, none, none, none, []⟩] ∧
    (extract_diagnostics p (some lf) (Except.error e) iw).success = true := by
  exact ⟨rfl, rfl⟩

/-! ### Claim C4 — the code-context capture condition -/

/-- Claim C4, counterexample.  The claim states that the line following
a retained diagnostic is captured as its `code` and recorded in the
shared map exactly when it is not a diagnostic or note line, not blank,
and not path-prefixed.  But the capture step only rules out
main-pattern lines and path-prefixed lines: on the input
`["a.swift:1:2: error: boom", "file.swift:3:4: note: hi"]` the
following line is a note line, yet it is captured as the diagnostic's
`code` and recorded in the map. -/
theorem c4_capture_counterexample :
    noteHit (("file.swift:3:4: note: hi").data) = true ∧
    ((pyParse [("a.swift:1:2: error: boom").data,
        ("file.swift:3:4: note: hi").data] true).headD emptyIssue).code =
      some (("file.swift:3:4: note: hi").data) ∧
    ctxFind (("a.swift").data, 1)
      (pyParseFull [("a.swift:1:2: error: boom").data,
        ("file.swift:3:4: note: hi").data] true).2 =
      some (("file.swift:3:4: note: hi").data) := by
  decide

/-- Claim C4, amended.  For a retained diagnostic with a following
line, that line is captured as the diagnostic's `code` and recorded in
the shared map under `file_path:line_number` if and only if it does not
match the main four-field pattern and its stripped text does not start
with `'/'` — blank lines, note lines and abbreviated-form diagnostic
lines are all captured. -/
theorem c4_capture_amended (d x fp : Line) (ln col : Nat) (kind : IssueKind)
    (msg : Line) (hd : primaryGroups d = some (fp, ln, col, kind, msg)) :
    (((pyParse [d, x] true).headD emptyIssue).code = some (pyRstrip x) ∧
      ctxFind (fp, ln) (pyParseFull [d, x] true).2 = some (pyRstrip x)) ↔
    (mainHit x = false ∧ startsWithSlash x = false) := by
  constructor
  · intro hlhs
    by_contra hcond
    obtain ⟨w, hw, hmem⟩ := parseLoop_ctx_append [d, x] true ([d, x].length + 1) [] 0
    have hwnil : w = [] := by
      rw [List.eq_nil_iff_forall_not_mem]
      intro e he
      obtain ⟨m, fp2, ln2, col2, kind2, msg2, hpg2, hm, hmain2, hslash2, he2⟩ :=
        hmem e he
      have hm0 : m = 0 := by simp at hm; omega
      subst hm0
      exact hcond ⟨by simpa using hmain2, by simpa using hslash2⟩
    have h2 := hlhs.2
    rw [pyParseFull] at h2
    rw [hwnil, List.nil_append] at hw
    rw [hw] at h2
    simp [ctxFind] at h2
  · rintro ⟨hxm, hxs⟩
    rw [pyParse, pyParseFull]
    cases hsn : searchNote x with
    | some g =>
      obtain ⟨nfp, nln, ncol, nmsg⟩ := g
      simp [parseLoop, lookahead, hd, hxm, hxs, hsn, withIssue, ctxFind, ctxInsert]
    | none =>
      by_cases hfx : fixitHit x = true
      · have hct := fixitHit_code_truthy hfx
        simp [parseLoop, lookahead, hd, hxm, hxs, hsn, hfx, hct, withIssue,
          ctxFind, ctxInsert]
      · rw [Bool.not_eq_true] at hfx
        by_cases hcc : codeCtxHit x = true
        · simp [parseLoop, lookahead, hd, hxm, hxs, hsn, hfx, hcc, withIssue,
            ctxFind, ctxInsert]
        · rw [Bool.not_eq_true] at hcc
          cases hpx : primaryGroups x with
          | some g2 =>
            obtain ⟨fp2, ln2, col2, kind2, msg2⟩ := g2
            simp [parseLoop, lookahead, hd, hxm, hxs, hsn, hfx, hcc, hpx,
              withIssue, ctxFind, ctxInsert]
          | none =>
            simp [parseLoop, lookahead, hd, hxm, hxs, hsn, hfx, hcc, hpx,
              withIssue, ctxFind, ctxInsert]

/-- Claim C4, witness for the amended theorem at a concrete input. -/
theorem c4_capture_witness :
    (primaryGroups (("a.swift:1:2: error: boom").data) =
      some ((("a.swift").data), 1, 2, IssueKind.error, ("boom").data)) ∧
    ((((pyParse [("a.swift:1:2: error: boom").data, ("let x = 1").data]
          true).headD emptyIssue).code = some (pyRstrip (("let x = 1").data)) ∧
      ctxFind ((("a.swift").data), 1)
        (pyParseFull [("a.swift:1:2: error: boom").data, ("let x = 1").data]
          true).2 = some (pyRstrip (("let x = 1").data))) ↔
    (mainHit (("let x = 1").data) = false ∧
      startsWithSlash (("let x = 1").data) = false)) :=
  ⟨by decide, c4_capture_amended (("a.swift:1:2: error: boom").data)
    (("let x = 1").data) (("a.swift").data) 1 2 IssueKind.error (("boom").data)
    (by decide)⟩

/-! ### Claim C5 — implicit fix notes -/

/-- Claim C5, counterexample.  The claim requires only that the line
after a caret/tilde-only indicator is "not a diagnostic, note, or
indicator line" for the implicit fix note to be created.  On the input
`["a.swift:1:2: error: boom", "^^^", "x = y ^ z"]` the line after the
indicator matches no diagnostic or note pattern and is not an indicator
line (it is not caret/tilde-only), yet the code checks the fix-it
*search* — which hits on any line containing a caret — so no implicit
fix note is created at all, and the following line itself is treated as
a second indicator that overwrites `character_range`. -/
theorem c5_implicit_fix_counterexample :
    caretOnly (("^^^").data) = true ∧
    primaryGroups (("x = y ^ z").data) = none ∧
    noteHit (("x = y ^ z").data) = false ∧
    caretOnly (("x = y ^ z").data) = false ∧
    (pyParse [("a.swift:1:2: error: boom").data, ("^^^").data,
        ("x = y ^ z").data] true).map (fun d => d.notes) = [[]] ∧
    (pyParse [("a.swift:1:2: error: boom").data, ("^^^").data,
        ("x = y ^ z").data] true).map (fun d => d.character_range) =
      [some (("x = y ^ z").data)] := by
  decide

/-- Claim C5, amended.  When the lookahead of a retained diagnostic
meets a caret/tilde-only line (with no preceding note on that
iteration) and the line after the indicator matches neither the main
nor the note pattern *and contains no caret or tilde at all*, the
owning diagnostic gains exactly one `implicit_fix` note whose
`suggested_fix` is the next line's stripped text and whose `file_path`,
`line_number` and `column` are copied from the owning diagnostic; the
indicator line becomes the diagnostic's `character_range`. -/
theorem c5_implicit_fix_amended (d c r fp : Line) (ln col : Nat)
    (kind : IssueKind) (msg : Line)
    (hd : primaryGroups d = some (fp, ln, col, kind, msg))
    (hc : caretOnly c = true)
    (hrm : mainHit r = false) (hrn : noteHit r = false)
    (hrf : fixitHit r = false) :
    pyParse [d, c, r] true =
      [⟨kind, msg, some fp, some ln, some col, some c, some c,
        [⟨("implicit_fix").data, ("Fix suggestion").data, fp, ln, col,
          some (pyStrip r), none, some c⟩]⟩] := by
  have hcm : mainHit c = false := by
    rw [mainHit, searchMain_none_of_no_colon (caretOnly_no_colon hc)]; rfl
  have hcn : searchNote c = none :=
    searchNote_none_of_no_colon (caretOnly_no_colon hc)
  have hcs : startsWithSlash c = false := caretOnly_startsWithSlash hc
  have hcf : fixitHit c = true := caretOnly_fixitHit hc
  have hcr : pyRstrip c = c := caretOnly_pyRstrip hc
  have hct : codeFalsy (some c) = false := by
    have h0 := caretOnly_code_truthy hc; rwa [hcr] at h0
  rw [pyParse, pyParseFull]
  simp [parseLoop, lookahead, hd, hcm, hcn, hcs, hcf, hcr, hct, hrm, hrn, hrf,
    withIssue]

/-- Claim C5, witness for the amended theorem at a concrete input. -/
theorem c5_implicit_fix_witness :
    (primaryGroups (("a.swift:1:2: error: x").data) =
      some ((("a.swift").data), 1, 2, IssueKind.error, ("x").data)) ∧
    caretOnly (("^~~").data) = true ∧
    mainHit (("let y").data) = false ∧
    pyParse [("a.swift:1:2: error: x").data, ("^~~").data, ("let y").data] true =
      [⟨IssueKind.error, ("x").data, some (("a.swift").data), some 1, some 2,
        some (("^~~").data), some (("^~~").data),
        [⟨("implicit_fix").data, ("Fix suggestion").data, ("a.swift").data, 1, 2,
          some (pyStrip (("let y").data)), none, some (("^~~").data)⟩]⟩] :=
  ⟨by decide, by decide, by decide,
    c5_implicit_fix_amended (("a.swift:1:2: error: x").data) (("^~~").data)
      (("let y").data) (("a.swift").data) 1 2 IssueKind.error (("x").data)
      (by decide) (by decide) (by decide) (by decide) (by decide)⟩

/-! ### Claim C6 — note followed by fix-it indicator and replacement -/

/-- Claim C6, counterexample.  The claim states that the replacement
line after a note's fix-it indicator is consumed only if it is not
itself a diagnostic or note line.  The code only rules out main-pattern
and note-pattern lines, so an abbreviated-form diagnostic line
(`c.swift:5: error: expected foo`) *is* consumed as the suggested fix —
and is then not available to start its own diagnostic: the parse emits
a single issue whose note carries the diagnostic line as its
`suggested_fix`. -/
theorem c6_note_fixit_counterexample :
    (searchAlt (("c.swift:5: error: expected foo").data)).isSome = true ∧
    (pyParse [("a.swift:1:2: error: boom").data,
        ("b.swift:3:4: note: try this").data, ("^~~~").data,
        ("c.swift:5: error: expected foo").data] true).map
      (fun d => d.notes.map (fun n => n.suggested_fix)) =
      [[some (("c.swift:5: error: expected foo").data)]] ∧
    (pyParse [("a.swift:1:2: error: boom").data,
        ("b.swift:3:4: note: try this").data, ("^~~~").data,
        ("c.swift:5: error: expected foo").data] true).length = 1 := by
  decide

/-- Claim C6, amended.  For a retained diagnostic line immediately
followed by any note line, a fix-it indicator line and a replacement
line, the replacement is consumed as the note's `suggested_fix`
exactly when it matches neither the main four-field pattern nor the
note pattern.  When it matches neither, the resulting issue has exactly
one Note whose `suggested_fix` equals the replacement's trimmed text —
for every note line, absolute-path ones included; only the diagnostic's
`code` field and the shared-map entry depend on the note line's capture
guard, which the conclusion carries as a conditional.  When the
replacement does match the main or note pattern, the note keeps the
fix-it indicator but its `suggested_fix` stays empty.  An
abbreviated-form diagnostic line matches neither pattern and is
therefore still consumed, which is what refutes the original claim. -/
theorem c6_note_fixit_amended (d n f r fp nfp : Line) (ln col nln ncol : Nat)
    (kind : IssueKind) (msg nmsg : Line)
    (hd : primaryGroups d = some (fp, ln, col, kind, msg))
    (hn : searchNote n = some (nfp, nln, ncol, nmsg))
    (hff : fixitHit f = true) :
    (mainHit r = false → noteHit r = false →
      pyParse [d, n, f, r] true =
        [⟨kind, msg, some fp, some ln, some col, none,
          (if (!mainHit n && !startsWithSlash n) = true then
            some (pyRstrip n) else none),
          [⟨("note").data, pyStrip nmsg, nfp, nln, ncol, some (pyStrip r),
            ctxFind (nfp, nln)
              (if (!mainHit n && !startsWithSlash n) = true then
                ctxInsert (fp, ln) (pyRstrip n) [] else []),
            some (pyRstrip f)⟩]⟩]) ∧
    ((mainHit r || noteHit r) = true →
      (((pyParse [d, n, f, r] true).headD emptyIssue).notes.headD
          emptyNote).message = pyStrip nmsg ∧
      (((pyParse [d, n, f, r] true).headD emptyIssue).notes.headD
          emptyNote).suggested_fix = none ∧
      (((pyParse [d, n, f, r] true).headD emptyIssue).notes.headD
          emptyNote).fixit_indicator = some (pyRstrip f)) := by
  constructor
  · intro hrm hrn
    by_cases hcap : (!mainHit n && !startsWithSlash n) = true
    · have hcap2 := hcap
      rw [Bool.and_eq_true, Bool.not_eq_true', Bool.not_eq_true'] at hcap2
      obtain ⟨hm, hs⟩ := hcap2
      rw [pyParse, pyParseFull]
      simp [parseLoop, lookahead, hd, hn, hm, hs, hff, hrm, hrn, withIssue]
    · rw [Bool.not_eq_true] at hcap
      rw [pyParse, pyParseFull]
      simp [parseLoop, lookahead, hd, hn, hcap, hff, hrm, hrn, withIssue]
  · intro hr
    have hrg : (!mainHit r && !noteHit r) = false := by
      rw [← Bool.not_or, hr]; rfl
    cases hsr : searchNote r with
    | some g2 =>
      obtain ⟨rfp, rln, rcol, rmsg⟩ := g2
      rw [pyParse, pyParseFull]
      simp [parseLoop, lookahead, hd, hn, hff, hrg, hsr, withIssue]
    | none =>
      by_cases hfr : fixitHit r = true
      · rw [pyParse, pyParseFull]
        simp [parseLoop, lookahead, hd, hn, hff, hrg, hsr, hfr, withIssue]
      · rw [Bool.not_eq_true] at hfr
        by_cases hcr : codeCtxHit r = true
        · rw [pyParse, pyParseFull]
          simp [parseLoop, lookahead, hd, hn, hff, hrg, hsr, hfr, hcr, withIssue]
        · rw [Bool.not_eq_true] at hcr
          have hnr : noteHit r = false := by rw [noteHit, hsr]; rfl
          have hmr : mainHit r = true := by
            rw [Bool.or_eq_true] at hr
            rcases hr with h | h
            · exact h
            · rw [hnr] at h; cases h
          rw [mainHit, Option.isSome_iff_exists] at hmr
          obtain ⟨g2, hg2⟩ := hmr
          obtain ⟨rfp, rln, rcol, rkind, rmsg⟩ := g2
          have hpr : primaryGroups r = some (rfp, rln, rcol, rkind, pyStrip rmsg) := by
            rw [primaryGroups, hg2]
          rw [pyParse, pyParseFull]
          simp [parseLoop, lookahead, hd, hn, hff, hrg, hsr, hfr, hcr, hg2, hpr,
            withIssue]

/-- Claim C6, witness for the amended theorem at concrete inputs: the
note line is an absolute-path one; the consumption direction is
exercised with a plain replacement line and the non-consumption
direction with a replacement that is itself a note line. -/
theorem c6_note_fixit_witness :
    (primaryGroups (("a.swift:1:2: error: boom").data) =
      some ((("a.swift").data), 1, 2, IssueKind.error, ("boom").data)) ∧
    (searchNote (("/abs/b.swift:3:4: note: try this").data) =
      some ((("/abs/b.swift").data), 3, 4, ("try this").data)) ∧
    fixitHit (("  ^~~~").data) = true ∧
    (mainHit (("d.swift:7:8: note: other").data)
      || noteHit (("d.swift:7:8: note: other").data)) = true ∧
    pyParse [("a.swift:1:2: error: boom").data,
        ("/abs/b.swift:3:4: note: try this").data, ("  ^~~~").data,
        ("  use this instead").data] true =
      [⟨IssueKind.error, ("boom").data, some (("a.swift").data), some 1, some 2,
        none,
        (if (!mainHit (("/abs/b.swift:3:4: note: try this").data)
            && !startsWithSlash (("/abs/b.swift:3:4: note: try this").data)) = true
          then some (pyRstrip (("/abs/b.swift:3:4: note: try this").data))
          else none),
        [⟨("note").data, pyStrip (("try this").data), ("/abs/b.swift").data, 3, 4,
          some (pyStrip (("  use this instead").data)),
          ctxFind ((("/abs/b.swift").data), 3)
            (if (!mainHit (("/abs/b.swift:3:4: note: try this").data)
                && !startsWithSlash (("/abs/b.swift:3:4: note: try this").data)) = true
              then ctxInsert ((("a.swift").data), 1)
                (pyRstrip (("/abs/b.swift:3:4: note: try this").data)) []
              else []),
          some (pyRstrip (("  ^~~~").data))⟩]⟩] ∧
    (((pyParse [("a.swift:1:2: error: boom").data,
        ("/abs/b.swift:3:4: note: try this").data, ("  ^~~~").data,
        ("d.swift:7:8: note: other").data] true).headD emptyIssue).notes.headD
      emptyNote).suggested_fix = none :=
  ⟨by decide, by decide, by decide, by decide,
    (c6_note_fixit_amended (("a.swift:1:2: error: boom").data)
      (("/abs/b.swift:3:4: note: try this").data) (("  ^~~~").data)
      (("  use this instead").data) (("a.swift").data) (("/abs/b.swift").data)
      1 2 3 4 IssueKind.error (("boom").data) (("try this").data)
      (by decide) (by decide) (by decide)).1 (by decide) (by decide),
    ((c6_note_fixit_amended (("a.swift:1:2: error: boom").data)
      (("/abs/b.swift:3:4: note: try this").data) (("  ^~~~").data)
      (("d.swift:7:8: note: other").data) (("a.swift").data)
      (("/abs/b.swift").data) 1 2 3 4 IssueKind.error (("boom").data)
      (("try this").data) (by decide) (by decide) (by decide)).2
      (by decide)).2.1⟩

/-! ### Claim C7 — success flag semantics -/

/-- Claim C7, confirmed.  `extract_diagnostics` reports
`success = false` exactly when no build-log artifact was found, and in
that case the error and warning lists are empty and the message is the
explanatory text; with a log present the result reports
`success = true` even when parsing yields zero issues. -/
theorem c7_success_flag_confirmed (p : Line) (latestLog : Option Line)
    (ext : Except Line Line) (iw : Bool) :
    ((extract_diagnostics p latestLog ext iw).success = false ↔ latestLog = none) ∧
    (extract_diagnostics p none ext iw).errors = [] ∧
    (extract_diagnostics p none ext iw).warnings = [] ∧
    (extract_diagnostics p none ext iw).message =
      some (("No build logs found for project ").data ++ p) := by
  refine ⟨?_, rfl, rfl, rfl⟩
  cases latestLog with
  | none => simp [extract_diagnostics]
  | some lf => simp [extract_diagnostics]

/-! ### Claim C8 — abbreviated "expected" form -/

/-- Claim C8, confirmed.  A line matching the abbreviated pattern but
not the main pattern classifies with column 1 (no column is parsed from
the text — the abbreviated pattern has no column group) and the
line number extracted from the line; parsing such a line yields the
corresponding issue with `column = 1`. -/
theorem c8_abbreviated_form_confirmed (l fp : Line) (ln : Nat)
    (kind : IssueKind) (msg : Line)
    (hmain : searchMain l = none)
    (halt : searchAlt l = some (fp, ln, kind, msg)) :
    primaryGroups l = some (fp, ln, 1, kind, pyStrip msg) ∧
    pyParse [l] true =
      [⟨kind, pyStrip msg, some fp, some ln, some 1, none, none, []⟩] := by
  have hpg : primaryGroups l = some (fp, ln, 1, kind, pyStrip msg) := by
    rw [primaryGroups, hmain, halt]
  refine ⟨hpg, ?_⟩
  rw [pyParse, pyParseFull]
  simp [parseLoop, lookahead, hpg, withIssue]

/-- Claim C8, witness at a concrete input. -/
theorem c8_abbreviated_form_witness :
    searchMain (("f.swift:3: error: expected x").data) = none ∧
    searchAlt (("f.swift:3: error: expected x").data) =
      some ((("f.swift").data), 3, IssueKind.error, ("expected x").data) ∧
    (primaryGroups (("f.swift:3: error: expected x").data) =
      some ((("f.swift").data), 3, 1, IssueKind.error,
        pyStrip (("expected x").data)) ∧
    pyParse [("f.swift:3: error: expected x").data] true =
      [⟨IssueKind.error, pyStrip (("expected x").data), some (("f.swift").data),
        some 3, some 1, none, none, []⟩]) :=
  ⟨by decide, by decide,
    c8_abbreviated_form_confirmed (("f.swift:3: error: expected x").data)
      (("f.swift").data) 3 IssueKind.error (("expected x").data)
      (by decide) (by decide)⟩

/-! ### Claim C9 — order preservation -/

/-- Claim C9, confirmed.  The indices at which the emitted diagnostics'
primary patterns matched are strictly increasing along the output list,
and the instrumented scan projects to the plain parse — the engine
performs no reordering or grouping. -/
theorem c9_order_preservation_confirmed (lines : List Line) (iw : Bool) :
    (pyParseIdx lines iw).Pairwise (fun a b => a.1 < b.1) ∧
    (pyParseIdx lines iw).map Prod.snd = pyParse lines iw :=
  ⟨parseLoopIdx_sorted lines iw _ [] 0, parseLoopIdx_snd lines iw _ [] 0⟩

/-! ### Claim C10 — termination of the scan -/

/-- Claim C10, confirmed.  The lookahead cursor never decreases (it
starts at `i + 1 > i`, so each outer iteration strictly increases the
outer cursor), and the scan's result is independent of the fuel bound
whenever the fuel covers the remaining line count: the loop reaches the
end of the input after at most `lines.length - i` iterations, i.e. the
parse terminates on every finite line sequence. -/
theorem c10_termination_confirmed :
    (∀ (lines : List Line) (iw : Bool) (f1 f2 : Nat) (ctx : Ctx) (i : Nat),
      lines.length ≤ i + f1 → lines.length ≤ i + f2 →
      parseLoop lines iw f1 ctx i = parseLoop lines iw f2 ctx i) ∧
    (∀ (lines : List Line) (ctx : Ctx) (fp : Line) (ln col fuel : Nat)
      (code cr : Option Line) (notes : List Note) (j : Nat),
      j ≤ (lookahead lines ctx fp ln col fuel code cr notes j).j) :=
  ⟨fun lines iw f1 f2 ctx i h1 h2 => parseLoop_fuel lines iw f1 f2 ctx i h1 h2,
   fun lines ctx fp ln col fuel code cr notes j =>
    lookahead_le lines ctx fp ln col fuel code cr notes j⟩

/-- Claim C10, witness at a concrete input. -/
theorem c10_termination_witness :
    (([("a.swift:1:2: error: x").data] : List Line).length ≤ 0 + 2 ∧
      ([("a.swift:1:2: error: x").data] : List Line).length ≤ 0 + 9) ∧
    parseLoop [("a.swift:1:2: error: x").data] true 2 [] 0 =
      parseLoop [("a.swift:1:2: error: x").data] true 9 [] 0 :=
  ⟨⟨by decide, by decide⟩,
    c10_termination_confirmed.1 [("a.swift:1:2: error: x").data] true 2 9 [] 0
      (by decide) (by decide)⟩

end XcodeDiag
